import Mathlib

/-!
Verification development for the sales-dashboard analytics engine
(`app.py`).  The pure analytics core — stage classification, probability
estimation, numeric normalization, deal enrichment, filtering, KPI
aggregation, grouped rollups and insight rules — is embedded shallowly:
monetary amounts are rationals, dates are integer day numbers, tables are
lists of rows.
-/

namespace Dashboard

/-! ### String machinery: `str.strip().lower()` and substring search -/

/-- One character of Python `str.lower()` for the alphabets in play:
ASCII `A`–`Z` and Cyrillic `А`–`Я` map down by 32 code points, `Ё` maps
to `ё`; every other character is unchanged. -/
def lowerChar (c : Char) : Char :=
  if 65 ≤ c.toNat ∧ c.toNat ≤ 90 then Char.ofNat (c.toNat + 32)
  else if 0x410 ≤ c.toNat ∧ c.toNat ≤ 0x42F then Char.ofNat (c.toNat + 32)
  else if c.toNat = 0x401 then Char.ofNat 0x451
  else c

/-- Whitespace for Python `str.strip()`. -/
def isSpaceChar (c : Char) : Bool :=
  c = ' ' || c = '\t' || c = '\n' || c = '\r'

/-- Python `str.strip()`: drop whitespace from both ends. -/
def stripList (s : List Char) : List Char :=
  ((s.dropWhile isSpaceChar).reverse.dropWhile isSpaceChar).reverse

/-- Composite `str(x).strip().lower()` on a character list. -/
def normList (s : List Char) : List Char :=
  (stripList s).map lowerChar

/-- Does `pre` start `l`? -/
def startsWithList : List Char → List Char → Bool
  | [], _ => true
  | _ :: _, [] => false
  | a :: as, b :: bs => a = b && startsWithList as bs

/-- Python `needle in haystack`: substring occurrence. -/
def containsSub (needle : List Char) : List Char → Bool
  | [] => startsWithList needle []
  | c :: rest => startsWithList needle (c :: rest) || containsSub needle rest

/-! ### Stage classifier (`classify_stage`, `stage_probability`) -/

inductive Status where
  | won
  | lost
  | open_
deriving DecidableEq, Repr

def WON_KEYWORDS : List String :=
  ["сделка", "оплата", "успеш", "won", "закрыто"]

def LOST_KEYWORDS : List String :=
  ["потеря", "отказ", "lost", "проиг", "неуспеш"]

/-- The ordered `(substring hint, probability)` list
`STAGE_PROBABILITY_HINTS` (Python dicts preserve insertion order). -/
def STAGE_PROBABILITY_HINTS : List (String × ℚ) :=
  [("лид", 1/10), ("квалифика", 1/5), ("контакт", 1/4), ("презента", 2/5),
   ("коммерчес", 1/2), ("переговор", 13/20), ("счет", 3/4), ("договор", 17/20),
   ("сделка", 1), ("оплата", 1), ("потер", 0), ("отказ", 0)]

/-- Body of `classify_stage` on an arbitrary character list (the function
re-normalizes its input, as the source does on each call). -/
def classifyCore (l : List Char) : Status :=
  let text := normList l
  if WON_KEYWORDS.any (fun k => containsSub k.toList text) then Status.won
  else if LOST_KEYWORDS.any (fun k => containsSub k.toList text) then Status.lost
  else Status.open_

def classify_stage (s : String) : Status :=
  classifyCore s.toList

/-- Does some keyword of `kws` occur in the normalized label? -/
def hasKeyword (kws : List String) (s : String) : Prop :=
  ∃ k ∈ kws, containsSub k.toList (normList s.toList) = true

/-- First hint of the ordered list whose substring occurs in `text`. -/
def findHint : List (String × ℚ) → List Char → Option ℚ
  | [], _ => none
  | (h, p) :: rest, text =>
      if containsSub h.toList text then some p else findHint rest text

/-- Model of `stage_probability`: first matching hint wins; otherwise fall back on
the classification (1 for won, 0 for lost, 0.35 for open).  The source
passes the already-normalized text back through `classify_stage`, which
normalizes again; `classifyCore` does the same. -/
def stage_probability (s : String) : ℚ :=
  match findHint STAGE_PROBABILITY_HINTS (normList s.toList) with
  | some p => p
  | none =>
      match classifyCore (normList s.toList) with
      | Status.won => 1
      | Status.lost => 0
      | Status.open_ => 7/20

/-! ### Numeric normalization (`to_numeric`) -/

/-- Characters kept by the cleaning regex `[^\d,.-]`. -/
def keepChar (c : Char) : Bool :=
  c.isDigit || c = ',' || c = '.' || c = '-'

def commaToDot (c : Char) : Char :=
  if c = ',' then '.' else c

/-- Cleaning pipeline of `to_numeric`: keep digits, comma, dot, minus;
comma becomes dot; a cell left empty becomes `"0"`. -/
def cleanCell (s : String) : List Char :=
  if (s.toList.filter keepChar).map commaToDot = [] then ['0']
  else (s.toList.filter keepChar).map commaToDot

def digitsToNat (l : List Char) : ℕ :=
  l.foldl (fun a c => a * 10 + (c.toNat - 48)) 0

/-- Split at the first `.`, keeping what follows it (if any). -/
def splitAtDot : List Char → List Char × Option (List Char)
  | [] => ([], none)
  | c :: rest =>
      if c = '.' then ([], some rest)
      else
        let p := splitAtDot rest
        (c :: p.1, p.2)

/-- Unsigned part of the float grammar: an integer part and at most one
fractional part, all digits, at least one digit overall. -/
def parseUnsigned (body : List Char) : Option ℚ :=
  match (splitAtDot body).2 with
  | none =>
      if body ≠ [] ∧ body.all Char.isDigit then
        some (digitsToNat body : ℚ)
      else none
  | some frac =>
      if ((splitAtDot body).1 ≠ [] ∨ frac ≠ [])
          ∧ (splitAtDot body).1.all Char.isDigit ∧ frac.all Char.isDigit then
        some ((digitsToNat (splitAtDot body).1 : ℚ)
          + (digitsToNat frac : ℚ) / 10 ^ frac.length)
      else none

/-- Model of `pd.to_numeric(..., errors="coerce")` on a cleaned cell
(which holds only digits, dots and minus signs): an optional leading
minus, then an unsigned float literal; anything else fails to parse. -/
def parseCleaned (l : List Char) : Option ℚ :=
  if l.headD 'x' = '-' then (parseUnsigned l.tail).map (fun q => -q)
  else parseUnsigned l

/-- Normalization `to_numeric` on one cell: clean, parse, coerce failures to 0. -/
def to_numeric (s : String) : ℚ :=
  (parseCleaned (cleanCell s)).getD 0

/-! ### Deal rows and enrichment (`preprocess_data`) -/

/-- A normalized deal row: base columns after `preprocess_data`'s date
parsing, numeric cleaning and text defaulting.  Dates are day numbers. -/
structure Row where
  deal_date : ℤ
  manager : String
  client : String
  product : String
  stage : String
  plan_amount : ℚ
  fact_amount : ℚ
deriving DecidableEq, Repr

/-- Column `Статус`. -/
def status (r : Row) : Status :=
  classify_stage r.stage

/-- Column `Вероятность этапа`. -/
def probability (r : Row) : ℚ :=
  stage_probability r.stage

/-- Column `Потенциал сделки`: `plan.where(plan > 0, fact)`. -/
def potential_value (r : Row) : ℚ :=
  if 0 < r.plan_amount then r.plan_amount else r.fact_amount

/-- Column `Факт закрытия` before the won-fallback:
`fact.where(status == won, 0.0)`. -/
def realized_init (r : Row) : ℚ :=
  if status r = Status.won then r.fact_amount else 0

/-- Column `Факт закрытия` after the won-fallback assignment on the mask
`(status == won) and (realized ≤ 0)`. -/
def realized_value (r : Row) : ℚ :=
  if status r = Status.won ∧ realized_init r ≤ 0 then potential_value r
  else realized_init r

/-- Column `Открытый пайплайн`. -/
def open_pipeline_value (r : Row) : ℚ :=
  if status r = Status.open_ then potential_value r else 0

/-- Column `Взвешенный прогноз`. -/
def weighted_forecast_value (r : Row) : ℚ :=
  if status r = Status.open_ then potential_value r * probability r else 0

/-! ### KPI aggregation (`safe_div`, `calculate_kpis`) -/

/-- Division `safe_div`: the quotient when the denominator is truthy (nonzero),
otherwise `0.0`. -/
def safe_div (numerator denominator : ℚ) : ℚ :=
  if denominator ≠ 0 then numerator / denominator else 0

def sumBy (f : Row → ℚ) (rows : List Row) : ℚ :=
  (rows.map f).sum

def countBy (p : Row → Bool) (rows : List Row) : ℕ :=
  (rows.filter p).length

structure KPIs where
  plan : ℚ
  fact : ℚ
  open_pipeline : ℚ
  weighted_pipeline : ℚ
  forecast : ℚ
  total_deals : ℕ
  won : ℕ
  lost : ℕ
  in_progress : ℕ
  plan_attainment_pct : ℚ
  forecast_attainment_pct : ℚ
  conversion_pct : ℚ
  win_rate_pct : ℚ
  avg_check : ℚ
deriving DecidableEq, Repr

/-- Aggregation `calculate_kpis` over a row subset. -/
def calculate_kpis (rows : List Row) : KPIs :=
  let won := countBy (fun r => status r = Status.won) rows
  let lost := countBy (fun r => status r = Status.lost) rows
  let in_progress := countBy (fun r => status r = Status.open_) rows
  let total_deals := rows.length
  let plan := sumBy (fun r => r.plan_amount) rows
  let fact := sumBy realized_value rows
  let open_pipeline := sumBy open_pipeline_value rows
  let weighted_pipeline := sumBy weighted_forecast_value rows
  let forecast := fact + weighted_pipeline
  { plan := plan
    fact := fact
    open_pipeline := open_pipeline
    weighted_pipeline := weighted_pipeline
    forecast := forecast
    total_deals := total_deals
    won := won
    lost := lost
    in_progress := in_progress
    plan_attainment_pct := safe_div fact plan * 100
    forecast_attainment_pct := safe_div forecast plan * 100
    conversion_pct := safe_div (won : ℚ) (total_deals : ℚ) * 100
    win_rate_pct := safe_div (won : ℚ) ((won : ℚ) + (lost : ℚ)) * 100
    avg_check := safe_div fact (won : ℚ) }

/-! ### Previous period (`get_previous_period`) -/

/-- Model of `get_previous_period` over day numbers. -/
def get_previous_period (start_date end_date : ℤ) : ℤ × ℤ :=
  let days_count := (end_date - start_date) + 1
  let previous_end := start_date - 1
  let previous_start := previous_end - (days_count - 1)
  (previous_start, previous_end)

/-! ### Filtering (`filter_data`) -/

/-- The fixed criteria tuple passed to `filter_data`. -/
structure Criteria where
  start_date : ℤ
  end_date : ℤ
  managers : List String
  products : List String
  stages : List String
  statuses : List Status
  min_amount : ℚ
  client_query : String
deriving Repr

/-- Case-insensitive client-substring predicate
(`str.contains(query, case=False, na=False)`). -/
def clientMatch (query : String) (r : Row) : Bool :=
  containsSub (query.toList.map lowerChar) (r.client.toList.map lowerChar)

/-- Filtering `filter_data`: date range first, then each optional predicate (an
empty selector, zero minimum or empty query imposes no restriction). -/
def filter_data (rows : List Row) (c : Criteria) : List Row :=
  let f1 := rows.filter fun r =>
    decide (c.start_date ≤ r.deal_date) && decide (r.deal_date ≤ c.end_date)
  let f2 := if c.managers ≠ [] then f1.filter (fun r => r.manager ∈ c.managers) else f1
  let f3 := if c.products ≠ [] then f2.filter (fun r => r.product ∈ c.products) else f2
  let f4 := if c.stages ≠ [] then f3.filter (fun r => r.stage ∈ c.stages) else f3
  let f5 := if c.statuses ≠ [] then f4.filter (fun r => status r ∈ c.statuses) else f4
  let f6 := if 0 < c.min_amount then f5.filter (fun r => c.min_amount ≤ potential_value r) else f5
  if c.client_query ≠ "" then f6.filter (clientMatch c.client_query) else f6

/-- The conjunction of all the predicates `filter_data` applies, an
inactive selector contributing a vacuous disjunct. -/
def filterPred (c : Criteria) (r : Row) : Bool :=
  ((!decide (c.client_query ≠ "")) || clientMatch c.client_query r)
    && ((!decide (0 < c.min_amount)) || decide (c.min_amount ≤ potential_value r))
    && ((!decide (c.statuses ≠ [])) || decide (status r ∈ c.statuses))
    && ((!decide (c.stages ≠ [])) || decide (r.stage ∈ c.stages))
    && ((!decide (c.products ≠ [])) || decide (r.product ∈ c.products))
    && ((!decide (c.managers ≠ [])) || decide (r.manager ∈ c.managers))
    && (decide (c.start_date ≤ r.deal_date) && decide (r.deal_date ≤ c.end_date))

/-! ### Grouped rollups (`build_manager_table`, `build_client_table`,
`build_product_table`) -/

/-- Elementwise `series_safe_div` on one entry. -/
def series_safe_div (numerator denominator : ℚ) : ℚ :=
  if denominator = 0 then 0 else numerator / denominator

structure ManagerRow where
  manager : String
  leads : ℕ
  won : ℕ
  lost : ℕ
  in_progress : ℕ
  plan : ℚ
  fact : ℚ
  open_pipeline : ℚ
  weighted : ℚ
  conversion_pct : ℚ
  win_rate_pct : ℚ
  plan_attainment_pct : ℚ
  avg_check : ℚ
deriving DecidableEq, Repr

/-- One `groupby(MANAGER_COL)` aggregate row, with the four rate columns
added exactly as the source computes them (conversion unguarded, win rate
and average check via `replace(0, NA).fillna(0)`, plan attainment via
`series_safe_div`). -/
def managerAgg (rows : List Row) (m : String) : ManagerRow :=
  let g := rows.filter fun r => r.manager = m
  let won := countBy (fun r => status r = Status.won) g
  let lost := countBy (fun r => status r = Status.lost) g
  let fact := sumBy realized_value g
  let plan := sumBy (fun r => r.plan_amount) g
  { manager := m
    leads := g.length
    won := won
    lost := lost
    in_progress := countBy (fun r => status r = Status.open_) g
    plan := plan
    fact := fact
    open_pipeline := sumBy open_pipeline_value g
    weighted := sumBy weighted_forecast_value g
    conversion_pct := (won : ℚ) / (g.length : ℚ) * 100
    win_rate_pct :=
      (if won + lost = 0 then 0 else (won : ℚ) / ((won : ℚ) + (lost : ℚ))) * 100
    plan_attainment_pct := series_safe_div fact plan * 100
    avg_check := if won = 0 then 0 else fact / (won : ℚ) }

/-- Rollup `build_manager_table`: empty input short-circuits, otherwise one row
per distinct manager, sorted by realized sum descending. -/
def build_manager_table (rows : List Row) : List ManagerRow :=
  if rows = [] then []
  else
    List.insertionSort (fun a b => b.fact ≤ a.fact)
      (((rows.map fun r => r.manager).dedup).map (managerAgg rows))

structure ClientRow where
  client : String
  deals : ℕ
  won : ℕ
  revenue : ℚ
  potential : ℚ
  last_deal : ℤ
  conversion_pct : ℚ
deriving DecidableEq, Repr

def clientAgg (rows : List Row) (c : String) : ClientRow :=
  let g := rows.filter fun r => r.client = c
  let won := countBy (fun r => status r = Status.won) g
  { client := c
    deals := g.length
    won := won
    revenue := sumBy realized_value g
    potential := sumBy open_pipeline_value g
    last_deal := ((g.map fun r => r.deal_date).max?).getD 0
    conversion_pct := (won : ℚ) / (g.length : ℚ) * 100 }

/-- Rollup `build_client_table`: one row per distinct client, sorted by revenue
descending. -/
def build_client_table (rows : List Row) : List ClientRow :=
  if rows = [] then []
  else
    List.insertionSort (fun a b => b.revenue ≤ a.revenue)
      (((rows.map fun r => r.client).dedup).map (clientAgg rows))

structure ProductRow where
  product : String
  deals : ℕ
  won : ℕ
  revenue : ℚ
  potential : ℚ
  conversion_pct : ℚ
deriving DecidableEq, Repr

def productAgg (rows : List Row) (p : String) : ProductRow :=
  let g := rows.filter fun r => r.product = p
  let won := countBy (fun r => status r = Status.won) g
  { product := p
    deals := g.length
    won := won
    revenue := sumBy realized_value g
    potential := sumBy open_pipeline_value g
    conversion_pct := (won : ℚ) / (g.length : ℚ) * 100 }

/-- Rollup `build_product_table`: one row per distinct product, sorted by
revenue descending. -/
def build_product_table (rows : List Row) : List ProductRow :=
  if rows = [] then []
  else
    List.insertionSort (fun a b => b.revenue ≤ a.revenue)
      (((rows.map fun r => r.product).dedup).map (productAgg rows))

/-! ### Funnel rollup (`stage_table` / `stage_detail`, funnel tab) -/

structure StageRow where
  stage : String
  prob : ℚ
  deals : ℕ
  potential : ℚ
  fact : ℚ
deriving DecidableEq, Repr

/-- Key of the funnel `groupby([STAGE_COL, "Вероятность этапа"])`. -/
def stageKey (r : Row) : String × ℚ :=
  (r.stage, probability r)

def stageAgg (rows : List Row) (k : String × ℚ) : StageRow :=
  let g := rows.filter fun r => stageKey r = k
  { stage := k.1
    prob := k.2
    deals := g.length
    potential := sumBy potential_value g
    fact := sumBy realized_value g }

/-- Ordering `sort_values(by=["Вероятность этапа", "Сделки"], ascending=[True,
False])`: probability ascending, deal count descending as tie-break. -/
def stageLE (a b : StageRow) : Prop :=
  a.prob < b.prob ∨ (a.prob = b.prob ∧ b.deals ≤ a.deals)

instance : DecidableRel stageLE := fun a b =>
  decidable_of_iff (a.prob < b.prob ∨ (a.prob = b.prob ∧ b.deals ≤ a.deals)) Iff.rfl

instance stageLE_isTotal : IsTotal StageRow stageLE where
  total a b := by
    unfold stageLE
    rcases lt_trichotomy a.prob b.prob with h | h | h
    · exact Or.inl (Or.inl h)
    · rcases le_total b.deals a.deals with hd | hd
      · exact Or.inl (Or.inr ⟨h, hd⟩)
      · exact Or.inr (Or.inr ⟨h.symm, hd⟩)
    · exact Or.inr (Or.inl h)

instance stageLE_isTrans : IsTrans StageRow stageLE where
  trans a b c hab hbc := by
    unfold stageLE at hab hbc ⊢
    rcases hab with h1 | ⟨e1, d1⟩
    · rcases hbc with h2 | ⟨e2, d2⟩
      · exact Or.inl (h1.trans h2)
      · exact Or.inl (e2 ▸ h1)
    · rcases hbc with h2 | ⟨e2, d2⟩
      · exact Or.inl (e1 ▸ h2)
      · exact Or.inr ⟨e1.trans e2, d2.trans d1⟩

def dStageRow : StageRow :=
  ⟨"", 0, 0, 0, 0⟩

/-- The funnel tab's `stage_table`: grouped, aggregated and sorted. -/
def stage_table (rows : List Row) : List StageRow :=
  List.insertionSort stageLE (((rows.map stageKey).dedup).map (stageAgg rows))

/-- Rounding as `numpy` does: nearest integer, ties to even. -/
def roundHalfEven (x : ℚ) : ℤ :=
  let f := ⌊x⌋
  if x - f < 1/2 then f
  else if 1/2 < x - f then f + 1
  else if f % 2 = 0 then f else f + 1

/-- One decimal place, `.round(1)`. -/
def round1 (x : ℚ) : ℚ :=
  (roundHalfEven (x * 10) : ℚ) / 10

/-- The conversion column before rounding: `Сделки / Сделки.shift(1)
.replace(0, NA) * 100`, NA filled with 100 (first row, or a zero
predecessor count). -/
def convRaw : Option ℕ → List StageRow → List ℚ
  | _, [] => []
  | prev?, s :: t =>
      (match prev? with
       | none => 100
       | some p => if p = 0 then 100 else (s.deals : ℚ) / (p : ℚ) * 100)
        :: convRaw (some s.deals) t

/-- Funnel table `stage_detail`: the sorted stage table paired with its rounded
per-stage conversion figure. -/
def stage_detail (rows : List Row) : List (StageRow × ℚ) :=
  let t := stage_table rows
  t.zip ((convRaw none t).map round1)

/-! ### Insight rules (`generate_insights`) -/

inductive Severity where
  | warning
  | error
  | info
  | success
deriving DecidableEq, Repr

/-- The messages of `generate_insights`, with their interpolated
quantities carried as data. -/
inductive Insight where
  | planBelow80
  | forecastGap (gap : ℚ)
  | lowWinRate
  | emptyPipeline
  | managerConcentration (name : String) (share : ℚ)
  | clientConcentration (name : String) (share : ℚ)
  | noCritical
deriving DecidableEq, Repr

/-- Rules `generate_insights`: the fixed ordered condition list; the fallback
message is appended exactly when nothing fired. -/
def generate_insights (k : KPIs) (manager_table : List ManagerRow)
    (client_table : List ClientRow) : List (Severity × Insight) :=
  let i1 : List (Severity × Insight) :=
    if 0 < k.plan ∧ k.plan_attainment_pct < 80 then
      [(Severity.warning, Insight.planBelow80)] else []
  let i2 : List (Severity × Insight) :=
    if 0 < k.plan ∧ k.forecast_attainment_pct < 100 then
      [(Severity.error, Insight.forecastGap (max (k.plan - k.forecast) 0))] else []
  let i3 : List (Severity × Insight) :=
    if k.win_rate_pct < 25 then [(Severity.warning, Insight.lowWinRate)] else []
  let i4 : List (Severity × Insight) :=
    if k.open_pipeline = 0 ∧ k.fact < k.plan then
      [(Severity.warning, Insight.emptyPipeline)] else []
  let i5 : List (Severity × Insight) :=
    match manager_table.head? with
    | some top =>
        if 0 < k.fact ∧ 55 < top.fact / k.fact * 100 then
          [(Severity.info, Insight.managerConcentration top.manager (top.fact / k.fact * 100))]
        else []
    | none => []
  let i6 : List (Severity × Insight) :=
    match client_table.head? with
    | some top =>
        if 0 < k.fact ∧ 35 < top.revenue / k.fact * 100 then
          [(Severity.info, Insight.clientConcentration top.client (top.revenue / k.fact * 100))]
        else []
    | none => []
  let all := i1 ++ i2 ++ i3 ++ i4 ++ i5 ++ i6
  if all = [] then [(Severity.success, Insight.noCritical)] else all

/-! ### Normalization lemmas -/

theorem charOfNat_toNat (n : ℕ) (h : n < 55296) : (Char.ofNat n).toNat = n := by
  unfold Char.ofNat
  rw [dif_pos (Or.inl h)]
  exact rfl

theorem lowerChar_idem (c : Char) : lowerChar (lowerChar c) = lowerChar c := by
  unfold lowerChar
  by_cases h1 : 65 ≤ c.toNat ∧ c.toNat ≤ 90
  · rw [if_pos h1]
    have ht : (Char.ofNat (c.toNat + 32)).toNat = c.toNat + 32 :=
      charOfNat_toNat _ (by omega)
    simp only [ht]
    rw [if_neg (by omega), if_neg (by omega), if_neg (by omega)]
  · by_cases h2 : 0x410 ≤ c.toNat ∧ c.toNat ≤ 0x42F
    · rw [if_neg h1, if_pos h2]
      have ht : (Char.ofNat (c.toNat + 32)).toNat = c.toNat + 32 :=
        charOfNat_toNat _ (by omega)
      simp only [ht]
      rw [if_neg (by omega), if_neg (by omega), if_neg (by omega)]
    · by_cases h3 : c.toNat = 0x401
      · rw [if_neg h1, if_neg h2, if_pos h3]
        have ht : (Char.ofNat 0x451).toNat = 0x451 := charOfNat_toNat _ (by omega)
        simp only [ht]
        rw [if_neg (by omega), if_neg (by omega), if_neg (by omega)]
      · rw [if_neg h1, if_neg h2, if_neg h3, if_neg h1, if_neg h2, if_neg h3]

theorem isSpaceChar_eq_false (c : Char) (h : 33 ≤ c.toNat) : isSpaceChar c = false := by
  unfold isSpaceChar
  have e1 : c ≠ ' ' := fun e => by rw [e] at h; exact absurd h (by decide)
  have e2 : c ≠ '\t' := fun e => by rw [e] at h; exact absurd h (by decide)
  have e3 : c ≠ '\n' := fun e => by rw [e] at h; exact absurd h (by decide)
  have e4 : c ≠ '\r' := fun e => by rw [e] at h; exact absurd h (by decide)
  simp [e1, e2, e3, e4]

theorem isSpaceChar_lowerChar (c : Char) :
    isSpaceChar (lowerChar c) = isSpaceChar c := by
  unfold lowerChar
  by_cases h1 : 65 ≤ c.toNat ∧ c.toNat ≤ 90
  · rw [if_pos h1]
    rw [isSpaceChar_eq_false _ (by rw [charOfNat_toNat _ (by omega)]; omega),
      isSpaceChar_eq_false c (by omega)]
  · by_cases h2 : 0x410 ≤ c.toNat ∧ c.toNat ≤ 0x42F
    · rw [if_neg h1, if_pos h2]
      rw [isSpaceChar_eq_false _ (by rw [charOfNat_toNat _ (by omega)]; omega),
        isSpaceChar_eq_false c (by omega)]
    · by_cases h3 : c.toNat = 0x401
      · rw [if_neg h1, if_neg h2, if_pos h3]
        rw [isSpaceChar_eq_false _ (by rw [charOfNat_toNat _ (by omega)]; omega),
          isSpaceChar_eq_false c (by omega)]
      · rw [if_neg h1, if_neg h2, if_neg h3]

theorem dropWhile_idem {α : Type} (p : α → Bool) :
    ∀ l : List α, (l.dropWhile p).dropWhile p = l.dropWhile p
  | [] => rfl
  | a :: t => by
      by_cases hp : p a = true
      · rw [List.dropWhile_cons, if_pos hp]
        exact dropWhile_idem p t
      · rw [List.dropWhile_cons, if_neg hp, List.dropWhile_cons, if_neg hp]

theorem dropWhile_head_false {α : Type} (p : α → Bool) (a : α) (t : List α)
    (h : (a :: t).dropWhile p = a :: t) : p a = false := by
  by_contra hp
  rw [Bool.not_eq_false] at hp
  rw [List.dropWhile_cons, if_pos hp] at h
  have hlen := congrArg List.length h
  have hle := (List.dropWhile_suffix (l := t) p).length_le
  simp at hlen
  omega

theorem dropWhile_eq_self_of_prefix {α : Type} (p : α → Bool) {v w : List α}
    (hw : w.dropWhile p = w) (hv : v <+: w) : v.dropWhile p = v := by
  cases v with
  | nil => rfl
  | cons a t =>
      obtain ⟨u, hu⟩ := hv
      subst hu
      rw [List.cons_append] at hw
      have hpa : p a = false := dropWhile_head_false p a (t ++ u) hw
      rw [List.dropWhile_cons, if_neg (by simp [hpa])]

theorem stripList_idem (l : List Char) : stripList (stripList l) = stripList l := by
  have hb : (stripList l).reverse.dropWhile isSpaceChar = (stripList l).reverse := by
    unfold stripList
    rw [List.reverse_reverse]
    exact dropWhile_idem isSpaceChar _
  have ha : (stripList l).dropWhile isSpaceChar = stripList l := by
    apply dropWhile_eq_self_of_prefix isSpaceChar
      (w := l.dropWhile isSpaceChar) (dropWhile_idem isSpaceChar l)
    unfold stripList
    have hs := List.dropWhile_suffix (l := (l.dropWhile isSpaceChar).reverse) isSpaceChar
    have := List.reverse_prefix.mpr hs
    rwa [List.reverse_reverse] at this
  have hdef : stripList (stripList l) =
      (((stripList l).dropWhile isSpaceChar).reverse.dropWhile isSpaceChar).reverse := rfl
  rw [hdef, ha, hb, List.reverse_reverse]

theorem stripList_map_lower (l : List Char) :
    stripList (l.map lowerChar) = (stripList l).map lowerChar := by
  unfold stripList
  have hcomp : (isSpaceChar ∘ lowerChar) = isSpaceChar :=
    funext fun c => isSpaceChar_lowerChar c
  rw [List.dropWhile_map, hcomp, ← List.map_reverse, List.dropWhile_map, hcomp,
    ← List.map_reverse]

theorem normList_idem (l : List Char) : normList (normList l) = normList l := by
  unfold normList
  rw [stripList_map_lower, stripList_idem, List.map_map]
  exact List.map_congr_left fun c _ => lowerChar_idem c

theorem classifyCore_normList (l : List Char) :
    classifyCore (normList l) = classifyCore l := by
  unfold classifyCore
  rw [normList_idem]

/-! ### Claim C6: the stage classifier -/

/-- C6: `classify_stage` lower-cases and trims the label, returns won
when any won keyword occurs, otherwise lost when any lost keyword occurs,
otherwise open; the won check takes precedence over the lost check and
every label maps to exactly one of the three statuses. -/
theorem C6_classify_stage_keyword_precedence (s : String) :
    (hasKeyword WON_KEYWORDS s → classify_stage s = Status.won)
    ∧ (¬hasKeyword WON_KEYWORDS s → hasKeyword LOST_KEYWORDS s →
        classify_stage s = Status.lost)
    ∧ (¬hasKeyword WON_KEYWORDS s → ¬hasKeyword LOST_KEYWORDS s →
        classify_stage s = Status.open_)
    ∧ (classify_stage s = Status.won ∨ classify_stage s = Status.lost ∨
        classify_stage s = Status.open_) := by
  unfold classify_stage classifyCore hasKeyword
  by_cases hw : ∃ k ∈ WON_KEYWORDS, containsSub k.toList (normList s.toList) = true
  · rw [if_pos (List.any_eq_true.mpr hw)]
    exact ⟨fun _ => rfl, fun h => absurd hw h, fun h => absurd hw h, Or.inl rfl⟩
  · rw [if_neg (fun ha => hw (List.any_eq_true.mp ha))]
    by_cases hl : ∃ k ∈ LOST_KEYWORDS, containsSub k.toList (normList s.toList) = true
    · rw [if_pos (List.any_eq_true.mpr hl)]
      exact ⟨fun h => absurd h hw, fun _ _ => rfl, fun _ h => absurd hl h,
        Or.inr (Or.inl rfl)⟩
    · rw [if_neg (fun ha => hl (List.any_eq_true.mp ha))]
      exact ⟨fun h => absurd h hw, fun _ h => absurd h hl, fun _ _ => rfl,
        Or.inr (Or.inr rfl)⟩

/-- Witness for C6 at a label holding both a won keyword (`оплата`) and a
lost keyword (`отказ`): the won check wins. -/
theorem C6_witness :
    classify_stage "Оплата после отказа" = Status.won :=
  (C6_classify_stage_keyword_precedence "Оплата после отказа").1
    ⟨"оплата", by decide, by decide⟩

/-! ### Claim C2: realized value and the won-fallback -/

/-- C2: for a won row the realized value is the fact amount when that is
positive and the potential value otherwise, so a won row with positive
potential has positive realized value; a row that is not won has realized
value 0. -/
theorem C2_realized_value_fallback (r : Row) :
    (status r = Status.won →
      (0 < r.fact_amount → realized_value r = r.fact_amount)
      ∧ (r.fact_amount ≤ 0 → realized_value r = potential_value r)
      ∧ (0 < potential_value r → 0 < realized_value r))
    ∧ (status r ≠ Status.won → realized_value r = 0) := by
  unfold realized_value realized_init
  constructor
  · intro hw
    rw [if_pos hw] at *
    refine ⟨fun hf => ?_, fun hf => ?_, fun hp => ?_⟩
    · rw [if_neg (by push_neg; exact fun _ => hf)]
    · rw [if_pos ⟨hw, hf⟩]
    · by_cases hf : 0 < r.fact_amount
      · rw [if_neg (by push_neg; exact fun _ => hf)]; exact hf
      · rw [if_pos ⟨hw, by linarith [not_lt.mp hf]⟩]; exact hp
  · intro hn
    rw [if_neg (fun h => hn h.1), if_neg hn]

/-- Witness for C2 at the spec example: stage `Сделка`, plan 50000, fact
0 — a won row whose realized value falls back to the potential 50000. -/
theorem C2_witness :
    realized_value ⟨10, "Иванов", "Клиент", "Продукт", "Сделка", 50000, 0⟩ = 50000 ∧
    0 < realized_value ⟨10, "Иванов", "Клиент", "Продукт", "Сделка", 50000, 0⟩ := by
  have h := C2_realized_value_fallback
    ⟨10, "Иванов", "Клиент", "Продукт", "Сделка", 50000, 0⟩
  have hw := h.1 (by decide)
  refine ⟨?_, hw.2.2 (by decide)⟩
  have := hw.2.1 (by decide)
  simpa [potential_value] using this

/-! ### Claim C3: probability hints -/

theorem findHint_of_first : ∀ (L : List (String × ℚ)) (text : List Char) (i : ℕ),
    i < L.length →
    containsSub ((L.getD i ("", 0)).1.toList) text = true →
    (∀ j, j < i → containsSub ((L.getD j ("", 0)).1.toList) text = false) →
    findHint L text = some ((L.getD i ("", 0)).2)
  | [], _, i, h, _, _ => absurd h (by simp)
  | (k, p) :: rest, text, 0, h, hit, _ => by
      have hit2 : containsSub k.toList text = true := hit
      unfold findHint
      rw [if_pos hit2]
      rfl
  | (k, p) :: rest, text, Nat.succ m, h, hit, hmiss => by
      unfold findHint
      rw [if_neg (by
        have h0 := hmiss 0 (Nat.succ_pos m)
        simp only [List.getD_cons_zero] at h0
        simp only [Bool.not_eq_true]
        exact h0)]
      have hrest := findHint_of_first rest text m (by simpa using h)
        (by simpa using hit)
        (fun j hj => by
          have hx := hmiss (j + 1) (by omega)
          simpa using hx)
      simpa using hrest

theorem findHint_eq_none (L : List (String × ℚ)) (text : List Char)
    (h : ∀ hp ∈ L, containsSub hp.1.toList text = false) :
    findHint L text = none := by
  induction L with
  | nil => rfl
  | cons kp rest ih =>
      unfold findHint
      rw [if_neg (by
        have h0 := h kp (by simp)
        simp only [Bool.not_eq_true]
        exact h0)]
      exact ih fun hp hm => h hp (by simp [hm])

/-- C3: enriching the example row (`Переговоры`, plan 100000, fact 0)
yields status open, probability 0.65, potential 100000, open pipeline
100000 and weighted forecast 65000; in general the probability is the
first matching substring hint of the ordered hint list, and when no hint
matches it falls back to 1 for won, 0 for lost and 0.35 for open. -/
theorem C3_stage_probability_first_hint :
    (status ⟨10, "Иванов", "Клиент", "Продукт", "Переговоры", 100000, 0⟩ = Status.open_
      ∧ probability ⟨10, "Иванов", "Клиент", "Продукт", "Переговоры", 100000, 0⟩ = 13/20
      ∧ potential_value ⟨10, "Иванов", "Клиент", "Продукт", "Переговоры", 100000, 0⟩ = 100000
      ∧ open_pipeline_value ⟨10, "Иванов", "Клиент", "Продукт", "Переговоры", 100000, 0⟩ = 100000
      ∧ weighted_forecast_value ⟨10, "Иванов", "Клиент", "Продукт", "Переговоры", 100000, 0⟩ = 65000)
    ∧ (∀ (s : String) (i : ℕ), i < STAGE_PROBABILITY_HINTS.length →
        containsSub ((STAGE_PROBABILITY_HINTS.getD i ("", 0)).1.toList) (normList s.toList) = true →
        (∀ j, j < i →
          containsSub ((STAGE_PROBABILITY_HINTS.getD j ("", 0)).1.toList) (normList s.toList) = false) →
        stage_probability s = (STAGE_PROBABILITY_HINTS.getD i ("", 0)).2)
    ∧ (∀ s : String,
        (∀ hp ∈ STAGE_PROBABILITY_HINTS,
          containsSub hp.1.toList (normList s.toList) = false) →
        stage_probability s =
          match classify_stage s with
          | Status.won => 1
          | Status.lost => 0
          | Status.open_ => 7/20) := by
  have hprob : probability ⟨10, "Иванов", "Клиент", "Продукт", "Переговоры", 100000, 0⟩
      = 13/20 := rfl
  have hstat : status ⟨10, "Иванов", "Клиент", "Продукт", "Переговоры", 100000, 0⟩
      = Status.open_ := rfl
  refine ⟨⟨hstat, hprob, ?_, ?_, ?_⟩, ?_, ?_⟩
  · norm_num [potential_value]
  · rw [open_pipeline_value, if_pos hstat]
    norm_num [potential_value]
  · rw [weighted_forecast_value, if_pos hstat, hprob]
    norm_num [potential_value]
  · intro s i h hit hmiss
    unfold stage_probability
    rw [findHint_of_first STAGE_PROBABILITY_HINTS (normList s.toList) i h hit hmiss]
  · intro s hnone
    unfold stage_probability
    rw [findHint_eq_none STAGE_PROBABILITY_HINTS (normList s.toList) hnone]
    have hcc : classifyCore (normList s.toList) = classify_stage s :=
      classifyCore_normList s.toList
    rw [hcc]

/-- Witness for C3: the hint rule applied at `Переговоры` (hint index 5)
and the fallback rule at a label matching no hint. -/
theorem C3_witness :
    stage_probability "Переговоры" = 13/20 ∧ stage_probability "won" = 1 := by
  constructor
  · have h := C3_stage_probability_first_hint.2.1 "Переговоры" 5 (by decide)
      rfl (fun j hj => by interval_cases j <;> rfl)
    exact h
  · have h := C3_stage_probability_first_hint.2.2 "won"
      (by intro hp hm; fin_cases hm <;> rfl)
    rw [h, show classify_stage "won" = Status.won from rfl]

/-! ### Claim C5: the previous period -/

/-- C5: `get_previous_period` ends the day before the current start,
spans exactly the same number of days, and maps a one-day period to the
single preceding day. -/
theorem C5_get_previous_period (start_date end_date : ℤ)
    (_h : start_date ≤ end_date) :
    (get_previous_period start_date end_date).2 = start_date - 1
    ∧ (get_previous_period start_date end_date).1
        = start_date - 1 - ((end_date - start_date + 1) - 1)
    ∧ (get_previous_period start_date end_date).2
        - (get_previous_period start_date end_date).1 = end_date - start_date
    ∧ (start_date = end_date →
        (get_previous_period start_date end_date).1 = start_date - 1
        ∧ (get_previous_period start_date end_date).2 = start_date - 1) := by
  refine ⟨?_, ?_, ?_, fun he => ⟨?_, ?_⟩⟩ <;> simp [get_previous_period] <;> omega

/-- Witness for C5 at the one-day period `(5, 5)` and at `(3, 7)`. -/
theorem C5_witness :
    (get_previous_period 5 5).1 = 4 ∧ (get_previous_period 5 5).2 = 4
    ∧ (get_previous_period 3 7).2 - (get_previous_period 3 7).1 = 7 - 3 := by
  have h1 := C5_get_previous_period 5 5 (by decide)
  have h2 := C5_get_previous_period 3 7 (by decide)
  exact ⟨(h1.2.2.2 rfl).1, (h1.2.2.2 rfl).2, h2.2.2.1⟩

/-! ### Claim C7: numeric cleaning -/

theorem parseUnsigned_nonneg (body : List Char) (q : ℚ)
    (h : parseUnsigned body = some q) : 0 ≤ q := by
  unfold parseUnsigned at h
  split at h
  · split_ifs at h with hc
    injection h with h1
    rw [← h1]
    positivity
  · split_ifs at h with hc
    injection h with h1
    rw [← h1]
    positivity

theorem cleanCell_no_minus (s : String) (hm : ('-') ∉ s.toList) :
    ('-') ∉ cleanCell s := by
  unfold cleanCell
  split_ifs with he
  · decide
  · intro hmem
    obtain ⟨c, hc, hcd⟩ := List.mem_map.mp hmem
    have hcm : c = '-' := by
      unfold commaToDot at hcd
      split_ifs at hcd with hcc
      · exact absurd hcd (by decide)
      · exact hcd
    exact hm (by
      have := (List.mem_filter.mp hc).1
      rwa [hcm] at this)

/-- C7 (amended): a cell that does not parse after cleaning is coerced to
0, and the parsed value is non-negative whenever the raw cell carries no
minus sign; a raw minus sign survives cleaning, so negative values are
possible. -/
theorem C7_to_numeric_coercion (s : String) :
    (parseCleaned (cleanCell s) = none → to_numeric s = 0)
    ∧ (('-') ∉ s.toList → 0 ≤ to_numeric s) := by
  constructor
  · intro h
    unfold to_numeric
    rw [h]
    rfl
  · intro hm
    have hnm : ('-') ∉ cleanCell s := cleanCell_no_minus s hm
    have hhead : ¬ ((cleanCell s).headD 'x' = '-') := by
      rcases hcl : cleanCell s with _ | ⟨a, t⟩
      · decide
      · intro ha
        apply hnm
        rw [hcl]
        rw [List.headD_cons] at ha
        rw [ha]
        exact List.mem_cons_self _ _
    unfold to_numeric parseCleaned
    rw [if_neg hhead]
    rcases hp : parseUnsigned (cleanCell s) with _ | q
    · rw [Option.getD_none]
    · rw [Option.getD_some]
      exact parseUnsigned_nonneg _ q hp

/-- Counterexample for C7 as stated: the raw cell `"-5"` cleans to
`-5`, a negative normalized amount. -/
theorem C7_counterexample : to_numeric "-5" = -5 ∧ to_numeric "-5" < 0 := by
  constructor
  · rfl
  · rw [show to_numeric "-5" = -5 from rfl]
    norm_num

/-- Witness for C7: an unparseable cleaned cell coerces to 0 and a
minus-free cell parses to a non-negative value. -/
theorem C7_witness : to_numeric "1.2.3" = 0 ∧ 0 ≤ to_numeric "12,5" :=
  ⟨(C7_to_numeric_coercion "1.2.3").1 rfl,
   (C7_to_numeric_coercion "12,5").2 (by decide)⟩

/-! ### Claim C1: KPI rates and the zero-denominator policy -/

/-- C1 (amended): every percentage rate of the KPI snapshot equals its
ratio times 100 when the denominator is nonzero and is exactly 0 when the
denominator is zero; the average check equals realized sum over won count
(not times 100) under the same policy; aggregation of the empty list
yields the all-zero snapshot. -/
theorem C1_kpi_zero_denominator (rows : List Row) :
    ((calculate_kpis rows).plan ≠ 0 → (calculate_kpis rows).plan_attainment_pct
        = (calculate_kpis rows).fact / (calculate_kpis rows).plan * 100)
    ∧ ((calculate_kpis rows).plan = 0 → (calculate_kpis rows).plan_attainment_pct = 0)
    ∧ ((calculate_kpis rows).plan ≠ 0 → (calculate_kpis rows).forecast_attainment_pct
        = (calculate_kpis rows).forecast / (calculate_kpis rows).plan * 100)
    ∧ ((calculate_kpis rows).plan = 0 → (calculate_kpis rows).forecast_attainment_pct = 0)
    ∧ (((calculate_kpis rows).total_deals : ℚ) ≠ 0 → (calculate_kpis rows).conversion_pct
        = ((calculate_kpis rows).won : ℚ) / ((calculate_kpis rows).total_deals : ℚ) * 100)
    ∧ (((calculate_kpis rows).total_deals : ℚ) = 0 → (calculate_kpis rows).conversion_pct = 0)
    ∧ (((calculate_kpis rows).won : ℚ) + ((calculate_kpis rows).lost : ℚ) ≠ 0 →
        (calculate_kpis rows).win_rate_pct = ((calculate_kpis rows).won : ℚ)
          / (((calculate_kpis rows).won : ℚ) + ((calculate_kpis rows).lost : ℚ)) * 100)
    ∧ (((calculate_kpis rows).won : ℚ) + ((calculate_kpis rows).lost : ℚ) = 0 →
        (calculate_kpis rows).win_rate_pct = 0)
    ∧ (((calculate_kpis rows).won : ℚ) ≠ 0 → (calculate_kpis rows).avg_check
        = (calculate_kpis rows).fact / ((calculate_kpis rows).won : ℚ))
    ∧ (((calculate_kpis rows).won : ℚ) = 0 → (calculate_kpis rows).avg_check = 0)
    ∧ (rows = [] → calculate_kpis rows =
        { plan := 0, fact := 0, open_pipeline := 0, weighted_pipeline := 0,
          forecast := 0, total_deals := 0, won := 0, lost := 0, in_progress := 0,
          plan_attainment_pct := 0, forecast_attainment_pct := 0,
          conversion_pct := 0, win_rate_pct := 0, avg_check := 0 }) := by
  refine ⟨?_, ?_, ?_, ?_, ?_, ?_, ?_, ?_, ?_, ?_, ?_⟩
  all_goals intro h
  · simp only [calculate_kpis] at h ⊢
    unfold safe_div
    rw [if_pos h]
  · simp only [calculate_kpis] at h ⊢
    unfold safe_div
    rw [if_neg (fun hne => hne h)]
    norm_num
  · simp only [calculate_kpis] at h ⊢
    unfold safe_div
    rw [if_pos h]
  · simp only [calculate_kpis] at h ⊢
    unfold safe_div
    rw [if_neg (fun hne => hne h)]
    norm_num
  · simp only [calculate_kpis] at h ⊢
    unfold safe_div
    rw [if_pos h]
  · simp only [calculate_kpis] at h ⊢
    unfold safe_div
    rw [if_neg (fun hne => hne h)]
    norm_num
  · simp only [calculate_kpis] at h ⊢
    unfold safe_div
    rw [if_pos h]
  · simp only [calculate_kpis] at h ⊢
    unfold safe_div
    rw [if_neg (fun hne => hne h)]
    norm_num
  · simp only [calculate_kpis] at h ⊢
    unfold safe_div
    rw [if_pos h]
  · simp only [calculate_kpis] at h ⊢
    unfold safe_div
    rw [if_neg (fun hne => hne h)]
  · subst h
    simp [calculate_kpis, safe_div, sumBy, countBy]

/-- Witness for C1: a single won deal (plan 50000, realized 50000) has
nonzero denominators, and aggregation of the empty list gives rate 0. -/
theorem C1_witness :
    ((calculate_kpis [⟨10, "А", "Б", "В", "Сделка", 50000, 0⟩]).plan_attainment_pct
      = (calculate_kpis [⟨10, "А", "Б", "В", "Сделка", 50000, 0⟩]).fact
        / (calculate_kpis [⟨10, "А", "Б", "В", "Сделка", 50000, 0⟩]).plan * 100)
    ∧ ((calculate_kpis [⟨10, "А", "Б", "В", "Сделка", 50000, 0⟩]).avg_check
      = (calculate_kpis [⟨10, "А", "Б", "В", "Сделка", 50000, 0⟩]).fact
        / ((calculate_kpis [⟨10, "А", "Б", "В", "Сделка", 50000, 0⟩]).won : ℚ))
    ∧ (calculate_kpis []).plan_attainment_pct = 0 := by
  refine ⟨(C1_kpi_zero_denominator _).1 (by with_unfolding_all decide),
    (C1_kpi_zero_denominator _).2.2.2.2.2.2.2.2.1 (by with_unfolding_all decide), ?_⟩
  rw [(C1_kpi_zero_denominator []).2.2.2.2.2.2.2.2.2.2 rfl]

/-- Counterexample for C1 as stated: for one won deal with realized
50000 the denominator (won count) is nonzero, yet the average check is
the plain ratio 50000, not the ratio times 100. -/
theorem C1_counterexample :
    ((calculate_kpis [⟨10, "А", "Б", "В", "Сделка", 50000, 0⟩]).won : ℚ) ≠ 0
    ∧ (calculate_kpis [⟨10, "А", "Б", "В", "Сделка", 50000, 0⟩]).avg_check
      ≠ (calculate_kpis [⟨10, "А", "Б", "В", "Сделка", 50000, 0⟩]).fact
        / ((calculate_kpis [⟨10, "А", "Б", "В", "Сделка", 50000, 0⟩]).won : ℚ) * 100 := by
  with_unfolding_all decide

/-! ### Claim C8: insight rules -/

theorem mem_fallback_cases {α : Type} [DecidableEq α] (X : List α) (f x : α)
    (h : x ∈ (if X = [] then [f] else X)) : x = f ∨ x ∈ X := by
  split_ifs at h with he
  · exact Or.inl (List.mem_singleton.mp h)
  · exact Or.inr h

/-- C8 (amended): the plan-at-risk warning is emitted exactly when the
plan is positive and plan attainment is below 80 percent; when none of
the guarded conditions holds, the result is exactly the single fallback
message. -/
theorem C8_insight_conditions (k : KPIs) (mt : List ManagerRow)
    (ct : List ClientRow) :
    ((Severity.warning, Insight.planBelow80) ∈ generate_insights k mt ct ↔
        0 < k.plan ∧ k.plan_attainment_pct < 80)
    ∧ ((¬(0 < k.plan ∧ k.plan_attainment_pct < 80)) →
       (¬(0 < k.plan ∧ k.forecast_attainment_pct < 100)) →
       (¬(k.win_rate_pct < 25)) →
       (¬(k.open_pipeline = 0 ∧ k.fact < k.plan)) →
       (∀ top ∈ mt.head?, ¬(0 < k.fact ∧ 55 < top.fact / k.fact * 100)) →
       (∀ top ∈ ct.head?, ¬(0 < k.fact ∧ 35 < top.revenue / k.fact * 100)) →
       generate_insights k mt ct = [(Severity.success, Insight.noCritical)]) := by
  constructor
  · by_cases h1 : 0 < k.plan ∧ k.plan_attainment_pct < 80
    · simp only [generate_insights, if_pos h1]
      rw [if_neg (by simp)]
      simp [h1]
    · simp only [generate_insights, if_neg h1, List.nil_append]
      constructor
      · intro hmem
        exfalso
        rcases mem_fallback_cases _ _ _ hmem with hf | hX
        · simp at hf
        · clear hmem
          rcases List.mem_append.mp hX with hX4 | h
          · rcases List.mem_append.mp hX4 with hX3 | h
            · rcases List.mem_append.mp hX3 with hX2 | h
              · rcases List.mem_append.mp hX2 with h | h
                · split_ifs at h <;> simp at h
                · split_ifs at h <;> simp at h
              · split_ifs at h <;> simp at h
            · rcases hx : mt.head? with _ | t
              · rw [hx] at h
                simp at h
              · rw [hx] at h
                have h2 : (Severity.warning, Insight.planBelow80) ∈
                    (if 0 < k.fact ∧ 55 < t.fact / k.fact * 100 then
                      [(Severity.info,
                        Insight.managerConcentration t.manager (t.fact / k.fact * 100))]
                    else []) := h
                split_ifs at h2 <;> simp at h2
          · rcases hx : ct.head? with _ | t
            · rw [hx] at h
              simp at h
            · rw [hx] at h
              have h2 : (Severity.warning, Insight.planBelow80) ∈
                  (if 0 < k.fact ∧ 35 < t.revenue / k.fact * 100 then
                    [(Severity.info,
                      Insight.clientConcentration t.client (t.revenue / k.fact * 100))]
                  else []) := h
              split_ifs at h2 <;> simp at h2
      · intro hc
        exact absurd hc h1
  · intro hn1 hn2 hn3 hn4 hn5 hn6
    rcases hmt : mt.head? with _ | topm <;> rcases hct : ct.head? with _ | topc <;>
      simp only [generate_insights, hmt, hct] <;>
      rw [if_neg hn1, if_neg hn2, if_neg hn3, if_neg hn4]
    · simp
    · rw [if_neg (hn6 topc hct)]
      simp
    · rw [if_neg (hn5 topm hmt)]
      simp
    · rw [if_neg (hn5 topm hmt), if_neg (hn6 topc hct)]
      simp

/-- Counterexample for C8 as stated: over the empty snapshot the plan
attainment is 0, below 80 percent, yet no plan-at-risk warning is
emitted (the condition is guarded by plan being positive). -/
theorem C8_counterexample :
    (calculate_kpis []).plan_attainment_pct < 80
    ∧ (Severity.warning, Insight.planBelow80)
        ∉ generate_insights (calculate_kpis []) [] [] := by
  with_unfolding_all decide

/-- Witness for C8: one won deal meeting its plan fires no condition, so
the evaluator returns exactly the fallback message. -/
theorem C8_witness :
    generate_insights (calculate_kpis [⟨10, "А", "Б", "В", "Оплата", 100, 100⟩]) [] []
      = [(Severity.success, Insight.noCritical)] :=
  (C8_insight_conditions (calculate_kpis [⟨10, "А", "Б", "В", "Оплата", 100, 100⟩]) [] []).2
    (by with_unfolding_all decide) (by with_unfolding_all decide)
    (by with_unfolding_all decide) (by with_unfolding_all decide)
    (by simp) (by simp)

/-! ### Claim C9: filter idempotence -/

theorem condFilter_eq (c : Prop) [Decidable c] (p : Row → Bool) (l : List Row) :
    (if c then l.filter p else l) = l.filter (fun r => !(decide c) || p r) := by
  split_ifs with h
  · apply List.filter_congr
    intro x _
    simp [h]
  · symm
    apply List.filter_eq_self.mpr
    intro a _
    simp [h]

theorem filter_data_eq_filter (rows : List Row) (c : Criteria) :
    filter_data rows c = rows.filter (filterPred c) := by
  unfold filter_data
  rw [condFilter_eq, condFilter_eq, condFilter_eq, condFilter_eq, condFilter_eq,
    condFilter_eq, List.filter_filter, List.filter_filter, List.filter_filter,
    List.filter_filter, List.filter_filter, List.filter_filter]
  rfl

/-- C9: applying `filter_data` twice with the same criteria tuple gives
exactly the same rows as applying it once. -/
theorem C9_filter_data_idempotent (rows : List Row) (c : Criteria) :
    filter_data (filter_data rows c) c = filter_data rows c := by
  rw [filter_data_eq_filter, filter_data_eq_filter, List.filter_filter]
  exact List.filter_congr fun x _ => Bool.and_self _

/-! ### Claim C10: rollup groups are never empty -/

theorem dedup_group_length_pos {α : Type} [DecidableEq α] (f : Row → α)
    (rows : List Row) (k : α) (hk : k ∈ (rows.map f).dedup) :
    0 < (rows.filter fun r => f r = k).length := by
  rw [List.mem_dedup] at hk
  obtain ⟨r, hr, hf⟩ := List.mem_map.mp hk
  have hmem : r ∈ rows.filter fun r => f r = k :=
    List.mem_filter.mpr ⟨hr, by simp [hf]⟩
  exact List.length_pos.mpr (List.ne_nil_of_mem hmem)

/-- C10: on a non-empty row set every group of the manager, client and
product rollups holds at least one row, so the unguarded per-group
conversion (won over size times 100) never divides by zero. -/
theorem C10_group_conversion_welldefined (rows : List Row) (hne : rows ≠ []) :
    (∀ g ∈ build_manager_table rows,
      0 < g.leads ∧ g.conversion_pct = (g.won : ℚ) / (g.leads : ℚ) * 100)
    ∧ (∀ g ∈ build_client_table rows,
      0 < g.deals ∧ g.conversion_pct = (g.won : ℚ) / (g.deals : ℚ) * 100)
    ∧ (∀ g ∈ build_product_table rows,
      0 < g.deals ∧ g.conversion_pct = (g.won : ℚ) / (g.deals : ℚ) * 100) := by
  refine ⟨?_, ?_, ?_⟩
  · intro g hg
    rw [build_manager_table, if_neg hne] at hg
    rw [(List.perm_insertionSort _ _).mem_iff] at hg
    obtain ⟨m, hm, rfl⟩ := List.mem_map.mp hg
    exact ⟨dedup_group_length_pos (fun r => r.manager) rows m hm, rfl⟩
  · intro g hg
    rw [build_client_table, if_neg hne] at hg
    rw [(List.perm_insertionSort _ _).mem_iff] at hg
    obtain ⟨m, hm, rfl⟩ := List.mem_map.mp hg
    exact ⟨dedup_group_length_pos (fun r => r.client) rows m hm, rfl⟩
  · intro g hg
    rw [build_product_table, if_neg hne] at hg
    rw [(List.perm_insertionSort _ _).mem_iff] at hg
    obtain ⟨m, hm, rfl⟩ := List.mem_map.mp hg
    exact ⟨dedup_group_length_pos (fun r => r.product) rows m hm, rfl⟩

/-- Witness for C10 on a one-row set. -/
theorem C10_witness :
    (∀ g ∈ build_manager_table [⟨10, "А", "Б", "В", "Лид", 10, 0⟩],
      0 < g.leads ∧ g.conversion_pct = (g.won : ℚ) / (g.leads : ℚ) * 100)
    ∧ (∀ g ∈ build_client_table [⟨10, "А", "Б", "В", "Лид", 10, 0⟩],
      0 < g.deals ∧ g.conversion_pct = (g.won : ℚ) / (g.deals : ℚ) * 100)
    ∧ (∀ g ∈ build_product_table [⟨10, "А", "Б", "В", "Лид", 10, 0⟩],
      0 < g.deals ∧ g.conversion_pct = (g.won : ℚ) / (g.deals : ℚ) * 100) :=
  C10_group_conversion_welldefined [⟨10, "А", "Б", "В", "Лид", 10, 0⟩] (by simp)

/-! ### Claim C4: funnel ordering and stage conversion -/

theorem convRaw_length : ∀ (p? : Option ℕ) (t : List StageRow),
    (convRaw p? t).length = t.length
  | _, [] => rfl
  | p?, s :: t => by
      cases p? <;> simp [convRaw, convRaw_length (some s.deals) t]

theorem zip_getD {α β : Type} (l : List α) (m : List β) (a : α) (b : β) (i : ℕ)
    (h1 : i < l.length) (h2 : i < m.length) :
    (l.zip m).getD i (a, b) = (l.getD i a, m.getD i b) := by
  have hz : i < (l.zip m).length := by
    rw [List.length_zip]
    omega
  rw [List.getD_eq_getElem _ _ hz, List.getD_eq_getElem _ _ h1,
    List.getD_eq_getElem _ _ h2, List.getElem_zip]

theorem getD_map_round1 (m : List ℚ) (i : ℕ) (h : i < m.length) :
    (m.map round1).getD i 0 = round1 (m.getD i 0) := by
  rw [List.getD_eq_getElem _ _ (by simpa using h), List.getElem_map,
    List.getD_eq_getElem _ _ h]

theorem convRaw_getD_zero : ∀ (t : List StageRow), 0 < t.length →
    (convRaw none t).getD 0 0 = 100
  | [], h => absurd h (by simp)
  | s :: t, _ => rfl

theorem convRaw_getD_succ (t : List StageRow) : ∀ (p? : Option ℕ) (j : ℕ),
    j + 1 < t.length →
    (convRaw p? t).getD (j + 1) 0 =
      if (t.getD j dStageRow).deals = 0 then 100
      else ((t.getD (j + 1) dStageRow).deals : ℚ)
        / ((t.getD j dStageRow).deals : ℚ) * 100 := by
  induction t with
  | nil =>
      intro p? j h
      exact absurd h (by simp)
  | cons s t2 ih =>
      intro p? j h
      have hstep : (convRaw p? (s :: t2)).getD (j + 1) 0
          = (convRaw (some s.deals) t2).getD j 0 := by
        cases p? <;> rfl
      rw [hstep]
      cases j with
      | zero =>
          rcases ht2 : t2 with _ | ⟨s2, t3⟩
          · rw [ht2] at h
            exact absurd h (by simp)
          · rfl
      | succ m =>
          have hm : m + 1 < t2.length := by
            simp only [List.length_cons] at h
            omega
          have := ih (some s.deals) m hm
          simpa [List.getD_cons_succ] using this

/-- C4 (amended): the funnel rollup is sorted by ascending stage
probability with descending deal count as tie-break, the first stage's
conversion figure is 100, and every later stage's figure is its deal
count over the previous stage's deal count times 100 rounded to one
decimal (100 when the previous count is zero). -/
theorem C4_funnel_sorted_conversion (rows : List Row) (i : ℕ) :
    List.Sorted stageLE (stage_table rows)
    ∧ List.map Prod.fst (stage_detail rows) = stage_table rows
    ∧ (0 < (stage_detail rows).length →
        ((stage_detail rows).getD 0 (dStageRow, 0)).2 = 100)
    ∧ (i + 1 < (stage_detail rows).length →
        ((stage_detail rows).getD (i + 1) (dStageRow, 0)).2 =
          if ((stage_detail rows).getD i (dStageRow, 0)).1.deals = 0 then 100
          else round1 ((((stage_detail rows).getD (i + 1) (dStageRow, 0)).1.deals : ℚ)
            / (((stage_detail rows).getD i (dStageRow, 0)).1.deals : ℚ) * 100)) := by
  have ht : stage_detail rows
      = (stage_table rows).zip ((convRaw none (stage_table rows)).map round1) := rfl
  have hcvlen : ((convRaw none (stage_table rows)).map round1).length
      = (stage_table rows).length := by
    rw [List.length_map, convRaw_length]
  have hdlen : (stage_detail rows).length = (stage_table rows).length := by
    rw [ht, List.length_zip, hcvlen, min_self]
  have h100 : round1 100 = 100 := by with_unfolding_all decide
  refine ⟨?_, ?_, ?_, ?_⟩
  · unfold stage_table
    exact List.sorted_insertionSort stageLE _
  · rw [ht]
    exact List.map_fst_zip _ _ (le_of_eq hcvlen.symm)
  · intro hpos
    rw [hdlen] at hpos
    rw [ht, zip_getD _ _ _ _ 0 hpos (by rw [hcvlen]; exact hpos)]
    show ((convRaw none (stage_table rows)).map round1).getD 0 0 = 100
    rw [getD_map_round1 _ _ (by rw [convRaw_length]; exact hpos),
      convRaw_getD_zero _ hpos, h100]
  · intro hb
    rw [hdlen] at hb
    have hb0 : i < (stage_table rows).length := by omega
    rw [ht, zip_getD _ _ _ _ (i + 1) hb (by rw [hcvlen]; exact hb),
      zip_getD _ _ _ _ i hb0 (by rw [hcvlen]; exact hb0)]
    show ((convRaw none (stage_table rows)).map round1).getD (i + 1) 0 =
      if ((stage_table rows).getD i dStageRow).deals = 0 then 100
      else round1 ((((stage_table rows).getD (i + 1) dStageRow).deals : ℚ)
        / (((stage_table rows).getD i dStageRow).deals : ℚ) * 100)
    rw [getD_map_round1 _ _ (by rw [convRaw_length]; exact hb),
      convRaw_getD_succ _ none i hb]
    split_ifs with hz
    · exact h100
    · rfl

/-- Counterexample for C4 as stated: over three `Лид` deals and one
`Переговоры` deal the second stage's conversion figure is the rounded
33.3, not the exact ratio 100/3. -/
theorem C4_counterexample :
    ((stage_detail [⟨10, "А", "Б", "В", "Лид", 10, 0⟩, ⟨10, "А", "Б", "В", "Лид", 20, 0⟩,
        ⟨10, "А", "Б", "В", "Переговоры", 100000, 0⟩, ⟨10, "А", "Б", "В", "Лид", 30, 0⟩]).map
      (fun x => x.1.deals)) = [3, 1]
    ∧ ((stage_detail [⟨10, "А", "Б", "В", "Лид", 10, 0⟩, ⟨10, "А", "Б", "В", "Лид", 20, 0⟩,
        ⟨10, "А", "Б", "В", "Переговоры", 100000, 0⟩, ⟨10, "А", "Б", "В", "Лид", 30, 0⟩]).map
      (fun x => x.2)) = [100, 333/10]
    ∧ ((stage_detail [⟨10, "А", "Б", "В", "Лид", 10, 0⟩, ⟨10, "А", "Б", "В", "Лид", 20, 0⟩,
        ⟨10, "А", "Б", "В", "Переговоры", 100000, 0⟩, ⟨10, "А", "Б", "В", "Лид", 30, 0⟩]).getD 1
          (dStageRow, 0)).2
      ≠ (((stage_detail [⟨10, "А", "Б", "В", "Лид", 10, 0⟩, ⟨10, "А", "Б", "В", "Лид", 20, 0⟩,
          ⟨10, "А", "Б", "В", "Переговоры", 100000, 0⟩, ⟨10, "А", "Б", "В", "Лид", 30, 0⟩]).getD 1
            (dStageRow, 0)).1.deals : ℚ)
        / (((stage_detail [⟨10, "А", "Б", "В", "Лид", 10, 0⟩, ⟨10, "А", "Б", "В", "Лид", 20, 0⟩,
          ⟨10, "А", "Б", "В", "Переговоры", 100000, 0⟩, ⟨10, "А", "Б", "В", "Лид", 30, 0⟩]).getD 0
            (dStageRow, 0)).1.deals : ℚ) * 100 := by
  with_unfolding_all decide

/-- Witness for C4 on the same four deals: the first figure is 100 and
the second is the rounded ratio. -/
theorem C4_witness :
    ((stage_detail [⟨10, "А", "Б", "В", "Лид", 10, 0⟩, ⟨10, "А", "Б", "В", "Лид", 20, 0⟩,
        ⟨10, "А", "Б", "В", "Переговоры", 100000, 0⟩, ⟨10, "А", "Б", "В", "Лид", 30, 0⟩]).getD 0
      (dStageRow, 0)).2 = 100
    ∧ ((stage_detail [⟨10, "А", "Б", "В", "Лид", 10, 0⟩, ⟨10, "А", "Б", "В", "Лид", 20, 0⟩,
        ⟨10, "А", "Б", "В", "Переговоры", 100000, 0⟩, ⟨10, "А", "Б", "В", "Лид", 30, 0⟩]).getD 1
          (dStageRow, 0)).2 =
      if ((stage_detail [⟨10, "А", "Б", "В", "Лид", 10, 0⟩, ⟨10, "А", "Б", "В", "Лид", 20, 0⟩,
          ⟨10, "А", "Б", "В", "Переговоры", 100000, 0⟩, ⟨10, "А", "Б", "В", "Лид", 30, 0⟩]).getD 0
            (dStageRow, 0)).1.deals = 0 then 100
      else round1 ((((stage_detail [⟨10, "А", "Б", "В", "Лид", 10, 0⟩,
          ⟨10, "А", "Б", "В", "Лид", 20, 0⟩, ⟨10, "А", "Б", "В", "Переговоры", 100000, 0⟩,
          ⟨10, "А", "Б", "В", "Лид", 30, 0⟩]).getD 1 (dStageRow, 0)).1.deals : ℚ)
        / (((stage_detail [⟨10, "А", "Б", "В", "Лид", 10, 0⟩, ⟨10, "А", "Б", "В", "Лид", 20, 0⟩,
          ⟨10, "А", "Б", "В", "Переговоры", 100000, 0⟩,
          ⟨10, "А", "Б", "В", "Лид", 30, 0⟩]).getD 0 (dStageRow, 0)).1.deals : ℚ) * 100) :=
  ⟨(C4_funnel_sorted_conversion [⟨10, "А", "Б", "В", "Лид", 10, 0⟩,
      ⟨10, "А", "Б", "В", "Лид", 20, 0⟩, ⟨10, "А", "Б", "В", "Переговоры", 100000, 0⟩,
      ⟨10, "А", "Б", "В", "Лид", 30, 0⟩] 0).2.2.1 (by with_unfolding_all decide),
   (C4_funnel_sorted_conversion [⟨10, "А", "Б", "В", "Лид", 10, 0⟩,
      ⟨10, "А", "Б", "В", "Лид", 20, 0⟩, ⟨10, "А", "Б", "В", "Переговоры", 100000, 0⟩,
      ⟨10, "А", "Б", "В", "Лид", 30, 0⟩] 0).2.2.2 (by with_unfolding_all decide)⟩

end Dashboard
